import Mathlib

/-!
Shallow embedding of the CasparCG media-pipeline core:

* `video_decoder` models `src/modules/ffmpeg/producer/video/video_decoder.cpp`
  (`video_decoder::implementation::run` and `dup_frame`).  The external codec
  (`avcodec_decode_video2`) is an oracle: each incoming packet carries the
  outcome the codec produces for it (a decoded frame, "no frame yet", or a
  decode error, i.e. a thrown `ffmpeg_error`), and each loop packet carries
  the list of frames the codec still buffers, which the zero-length flush
  decodes return one by one.  The `source_` channel filter admits only
  packets of the worker's own stream index, so the input list models the
  already-filtered stream.

* `output` models `src/src/core/consumer/output.cpp` (`output::impl`),
  in particular `operator()` (one dispatch tick).  Consumer behaviour
  (`initialize`, `send`, `state`, `has_synchronization_clock`) is external
  and is modelled by per-consumer outcome fields.  A tick additionally
  yields an event trace recording lock acquisition/release, the registry
  snapshot, `send` calls, future awaits, evictions, log lines and the
  pacing action, so that ordering properties of the tick are statable.

Time is measured in integer microseconds; `std::map<int, ...>` is an
association list with unique keys.
-/

namespace video_decoder

/-- Opaque ordering token threaded through the stream (`ticket_t`). -/
abbrev ticket_t := Nat

/-- A default-constructed `ticket_t()`, as sent with `loop_video()` and
`eof_video()` markers. -/
def defaultTicket : ticket_t := 0

/-- The fields of a decoded `AVFrame` that `run` inspects. -/
structure AVFrame where
  id : Nat
  interlaced_frame : Bool
deriving DecidableEq, Repr

/-- A frame after `dup_frame`: its planes are independently owned copies.
The buffer-level behaviour of `dup_frame` is modelled separately below;
for the decode loop only the identity of the duplicated frame matters. -/
structure DupFrame where
  src : AVFrame
deriving DecidableEq, Repr

/-- `dup_frame` as seen by the decode loop. -/
def dupF (f : AVFrame) : DupFrame := ⟨f⟩

/-- Outcome of `decode(packet)` for a data packet: the codec throws
(`THROW_ON_ERROR2` on `avcodec_decode_video2`), reports an incomplete
access unit (`frame_finished == 0`, `decode` returns null), or yields a
finished frame. -/
inductive DataOutcome where
  | err
  | noFrame
  | frame (f : AVFrame)
deriving DecidableEq, Repr

/-- How the run of zero-length flush decodes for one loop packet ends:
after the buffered frames are drained the codec either reports no further
frame (`clean`) or a flush decode throws (`err`). -/
inductive FlushEnd where
  | clean
  | err
deriving DecidableEq, Repr

/-- The codec's response to the flush decodes triggered by one loop packet:
the frames it still buffers, then the final outcome. -/
structure LoopScript where
  frames : List AVFrame
  fin : FlushEnd
deriving DecidableEq, Repr

/-- A packet on the worker's (index-filtered) input channel, tagged with
the codec's scripted response: `data` is an ordinary `AVPacket`, `loop`
and `eof` are the per-stream sentinels compared at lines 123 and 144. -/
inductive Packet where
  | data (outcome : DataOutcome)
  | loop (script : LoopScript)
  | eof
deriving DecidableEq, Repr

/-- The payload of a `target_element_t`: a duplicated frame, the
`loop_video()` marker or the `eof_video()` marker. -/
inductive FrameMsg where
  | frameMsg (f : DupFrame)
  | loopMsg
  | eofMsg
deriving DecidableEq, Repr

/-- Observable actions of the worker: a `send(target_, ...)` with its
ticket, and `avcodec_flush_buffers`. -/
inductive DecEvent where
  | send (m : FrameMsg) (t : ticket_t)
  | flushCodec
deriving DecidableEq, Repr

/-- Whether the worker's main loop has exited (eof sentinel received, or an
exception caught at line 159) or the input list ran out while the worker
was still blocked in `receive`. -/
inductive WorkerStatus where
  | waiting
  | exited
deriving DecidableEq, Repr

/-- The `for(auto decoded_frame = decode(pkt); ...)` flush loop (lines
132-136): each flush decode returns one buffered frame, which is
duplicated and sent with the loop element's ticket. -/
def flushDecodeLoop (t : ticket_t) : List AVFrame → List DecEvent
  | [] => []
  | f :: fs => DecEvent.send (FrameMsg.frameMsg (dupF f)) t :: flushDecodeLoop t fs

/-- The body of `run`'s `while(true)` (lines 118-157).  Arguments: the
codec's `CODEC_CAP_DELAY` capability, the current `is_progressive_` flag,
and the remaining input elements `(packet, ticket)`.  Returns the events
performed, whether the loop exited, and the final `is_progressive_`. -/
def runAux (hasDelay : Bool) : Bool → List (Packet × ticket_t) →
    List DecEvent × WorkerStatus × Bool
  | isProg, [] => ([], WorkerStatus.waiting, isProg)
  | isProg, (pkt, tk) :: rest =>
    match pkt with
    | Packet.loop script =>
      if hasDelay then
        let flushed := flushDecodeLoop tk script.frames
        match script.fin with
        | FlushEnd.err =>
          -- a flush decode threw: caught at line 159, loop exits
          (flushed, WorkerStatus.exited, isProg)
        | FlushEnd.clean =>
          let r := runAux hasDelay isProg rest
          (flushed ++ DecEvent.flushCodec ::
            DecEvent.send FrameMsg.loopMsg defaultTicket :: r.1, r.2.1, r.2.2)
      else
        let r := runAux hasDelay isProg rest
        (DecEvent.flushCodec ::
          DecEvent.send FrameMsg.loopMsg defaultTicket :: r.1, r.2.1, r.2.2)
    | Packet.eof => ([], WorkerStatus.exited, isProg)
    | Packet.data outcome =>
      match outcome with
      | DataOutcome.err => ([], WorkerStatus.exited, isProg)
      | DataOutcome.noFrame => runAux hasDelay isProg rest
      | DataOutcome.frame f =>
        let r := runAux hasDelay (!f.interlaced_frame) rest
        (DecEvent.send (FrameMsg.frameMsg (dupF f)) tk :: r.1, r.2.1, r.2.2)

/-- `video_decoder::implementation::run` (lines 114-167): the while loop,
then — on every exit path — `send(target_, (eof_video(), ticket_t()))`. -/
def run (hasDelay : Bool) (input : List (Packet × ticket_t)) :
    List DecEvent × WorkerStatus × Bool :=
  match runAux hasDelay true input with
  | (evs, WorkerStatus.exited, p) =>
    (evs ++ [DecEvent.send FrameMsg.eofMsg defaultTicket], WorkerStatus.exited, p)
  | (evs, WorkerStatus.waiting, p) => (evs, WorkerStatus.waiting, p)

/-- Is an event a sent `eof_video()` marker? -/
def isEofSend : DecEvent → Bool
  | DecEvent.send FrameMsg.eofMsg _ => true
  | _ => false

end video_decoder

namespace video_decoder

/-!
Memory model of `dup_frame` (lines 169-192) and of the release action
installed on the returned `safe_ptr`.  Pointers are abstract addresses;
an allocator state records the live blocks (base pointer, size) handed
out by `scalable_aligned_malloc` and a fresh-address counter.
`fast_memcpy_w_align_hack` returns a destination pointer adjusted inside
the 16 spare bytes; the adjustment is an arbitrary function `alignAdj`.
-/

/-- An abstract address. -/
abbrev Ptr := Nat

/-- The allocator: live blocks (base pointer, size) and the next fresh
address. -/
structure AllocState where
  blocks : List (Ptr × Nat)
  next : Ptr
deriving DecidableEq, Repr

/-- Allocation returns a fresh base pointer and records the block. -/
def scalable_aligned_malloc (sz : Nat) (st : AllocState) : Ptr × AllocState :=
  (st.next, { blocks := st.blocks ++ [(st.next, sz)], next := st.next + sz + 1 })

/-- Freeing removes the block; freeing an address that is not a live base
pointer (double free / foreign pointer) is invalid. -/
def scalable_aligned_free (p : Ptr) (st : AllocState) : Option AllocState :=
  if p ∈ st.blocks.map Prod.fst then
    some { st with blocks := st.blocks.filter (fun b => b.1 ≠ p) }
  else none

/-- Well-formed allocator: every live block lies below the fresh counter. -/
def AllocState.WF (st : AllocState) : Prop := ∀ b ∈ st.blocks, b.1 < st.next

instance (st : AllocState) : Decidable st.WF := by
  unfold AllocState.WF; infer_instance

/-- The `AVFrame` fields `dup_frame` touches: the plane data pointers and
line sizes (4-slot arrays in the source; lists here). -/
structure AVPlaneFrame where
  data : List Ptr
  linesize : List Nat
deriving DecidableEq, Repr

/-- The state captured by the release closure at line 184: the original
decoder-owned pointers and the real (allocation-base) pointers, per plane. -/
structure ReleaseAction where
  orgPtrs : List Ptr
  realPtrs : List Ptr
deriving DecidableEq, Repr

/-- The per-plane body of the `parallel_for` (lines 176-182), sequential
per the design note that plane-copy parallelism is an optimisation.  Input:
per-plane `(plane_height, (data[n], linesize[n]))`.  Output: the new
`data[n]` pointers, the allocator, and the recorded `org_ptrs`/`real_ptrs`. -/
def dupPlanes (alignAdj : Ptr → Ptr) :
    List (Nat × (Ptr × Nat)) → AllocState →
    List Ptr × AllocState × List Ptr × List Ptr
  | [], st => ([], st, [], [])
  | (h, (org, ls)) :: rest, st =>
    let size := ls * h
    let m := scalable_aligned_malloc (size + 16) st
    let r := dupPlanes alignAdj rest m.2
    (alignAdj m.1 :: r.1, r.2.1, org :: r.2.2.1, m.1 :: r.2.2.2)

/-- `dup_frame` (lines 169-192): allocate one padded buffer per plane of
`get_pixel_format_desc(...)`, copy into it, repoint `frame->data[n]` at
the (alignment-adjusted) copy, and record the pointers for the release
action. -/
def dup_frame (alignAdj : Ptr → Ptr) (planeHeights : List Nat)
    (frame : AVPlaneFrame) (st : AllocState) :
    AVPlaneFrame × AllocState × ReleaseAction :=
  let planes := planeHeights.zip (frame.data.zip frame.linesize)
  let r := dupPlanes alignAdj planes st
  ({ frame with data := r.1 ++ frame.data.drop planes.length },
   r.2.1, ⟨r.2.2.1, r.2.2.2⟩)

/-- Free a list of pointers in order; fails on the first invalid free. -/
def freeAll : List Ptr → AllocState → Option AllocState
  | [], st => some st
  | p :: ps, st =>
    match scalable_aligned_free p st with
    | some st1 => freeAll ps st1
    | none => none

/-- The release closure (lines 184-191): free each `real_ptrs[n]` and
restore `frame->data[n] = org_ptrs[n]`. -/
def releaseRun (r : ReleaseAction) (frame : AVPlaneFrame) (st : AllocState) :
    Option (AVPlaneFrame × AllocState) :=
  match freeAll r.realPtrs st with
  | some st1 =>
    some ({ frame with data := r.orgPtrs ++ frame.data.drop r.orgPtrs.length }, st1)
  | none => none

/-- One holder of the `safe_ptr` releases it: the deleter runs exactly
when the last reference is dropped (`std::shared_ptr` semantics). -/
def releaseOnce : Nat → Nat × Bool
  | 0 => (0, false)
  | 1 => (0, true)
  | n + 2 => (n + 1, false)

/-- Flags of `m` successive releases starting from `c` holders: `true`
at the release that ran the deleter. -/
def releaseSeq : Nat → Nat → List Bool
  | _, 0 => []
  | c, m + 1 => (releaseOnce c).2 :: releaseSeq (releaseOnce c).1 m

end video_decoder

namespace output

/-- `video_format_desc`: an identity tag, the frame byte size, and the
frame rate (frames per second; integral here, microsecond period
`1000000 / fps` matching `static_cast<int>(1e6 / fps)`). -/
structure video_format_desc where
  format : Nat
  size : Nat
  fps : Nat
deriving DecidableEq, Repr

/-- `const_frame`: only presence and `size()` are inspected by the tick. -/
structure const_frame where
  size : Nat
deriving DecidableEq, Repr

/-- The externally determined behaviour of one consumer's `send` on this
tick: the call itself throws; or it returns a future that resolves to
`true`, resolves to `false`, or throws at `get()`. -/
inductive SendOutcome where
  | throws
  | futTrue
  | futFalse
  | futThrows
deriving DecidableEq, Repr

/-- What a future yields at `get()`. -/
inductive FutResult where
  | accepted
  | rejected
  | errored
deriving DecidableEq, Repr

/-- `frame_consumer` as the dispatcher sees it: scripted outcomes of
`initialize` and `send`, the `state()` snapshot, the
`has_synchronization_clock()` capability and `index()`. -/
structure frame_consumer where
  initThrows : Bool
  sendO : SendOutcome
  stateSnap : Nat
  sync_clock : Bool
  index : Nat
deriving DecidableEq, Repr

/-- The future a non-throwing `send` hands back. -/
def futureOf : SendOutcome → FutResult
  | SendOutcome.throws => FutResult.errored
  | SendOutcome.futTrue => FutResult.accepted
  | SendOutcome.futFalse => FutResult.rejected
  | SendOutcome.futThrows => FutResult.errored

/-- Observable actions of one dispatch tick. -/
inductive OutputEvent where
  | lockAcquire
  | lockRelease
  | snapshotTaken (regKeys : List Nat)
  | initCall (idx : Nat) (fmt : video_format_desc)
  | sendCall (idx : Nat)
  | futureGet (idx : Nat)
  | eviction (idx : Nat)
  | logWarning
  | logError
  | recordNow (t : Nat)
  | sleepUntil (t : Nat)
deriving DecidableEq, Repr

/-- The mutable fields of `output::impl`: the aggregated `monitor::state`,
the current `video_format_desc`, the consumer registry (`std::map` as a
key-unique association list) and the optional pacing deadline `time_`. -/
structure OutputState where
  stateMap : List (String × Nat)
  format_desc : video_format_desc
  consumers : List (Nat × frame_consumer)
  time : Option Nat
deriving DecidableEq, Repr

/-- `std::map::erase(key)`. -/
def mapErase (k : Nat) : List (Nat × frame_consumer) → List (Nat × frame_consumer)
  | [] => []
  | p :: rest => if p.1 = k then rest else p :: mapErase k rest

/-- The format-change loop (lines 100-109): call `initialize(format, index)`
on every registered consumer, erasing (and logging) those that throw. -/
def reinitConsumers (fmt : video_format_desc) :
    List (Nat × frame_consumer) → List (Nat × frame_consumer) × List OutputEvent
  | [] => ([], [])
  | (i, c) :: rest =>
    let r := reinitConsumers fmt rest
    if c.initThrows then
      (r.1, OutputEvent.initCall i fmt :: OutputEvent.logError ::
        OutputEvent.eviction i :: r.2)
    else
      ((i, c) :: r.1, OutputEvent.initCall i fmt :: r.2)

/-- The send loop (lines 123-131): iterate the live `consumers_` map,
collecting `(index, future)` pairs; a consumer whose `send` throws is
logged and erased on the spot. -/
def sendLoop (frame : const_frame) :
    List (Nat × frame_consumer) →
    List (Nat × frame_consumer) × List (Nat × FutResult) × List OutputEvent
  | [] => ([], [], [])
  | (i, c) :: rest =>
    let r := sendLoop frame rest
    match c.sendO with
    | SendOutcome.throws =>
      (r.1, r.2.1, OutputEvent.sendCall i :: OutputEvent.logError ::
        OutputEvent.eviction i :: r.2.2)
    | o =>
      ((i, c) :: r.1, (i, futureOf o) :: r.2.1, OutputEvent.sendCall i :: r.2.2)

/-- The await loop (lines 133-142): `get()` every future in key order;
a `false` result or a throw erases that consumer from the live map. -/
def awaitLoop : List (Nat × FutResult) → List (Nat × frame_consumer) →
    List (Nat × frame_consumer) × List OutputEvent
  | [], live => (live, [])
  | (i, fr) :: rest, live =>
    match fr with
    | FutResult.accepted =>
      let r := awaitLoop rest live
      (r.1, OutputEvent.futureGet i :: r.2)
    | FutResult.rejected =>
      let r := awaitLoop rest (mapErase i live)
      (r.1, OutputEvent.futureGet i :: OutputEvent.eviction i :: r.2)
    | FutResult.errored =>
      let r := awaitLoop rest (mapErase i live)
      (r.1, OutputEvent.futureGet i :: OutputEvent.logError ::
        OutputEvent.eviction i :: r.2)

/-- The pacing action (lines 149-159), given the local `time` moved from
`time_` and the current clock reading. -/
def pacingEventOf (time : Option Nat) (now : Nat) : OutputEvent :=
  match time with
  | none => OutputEvent.recordNow now
  | some t => OutputEvent.sleepUntil t

/-- `output::impl::operator()` (lines 86-160): one dispatch tick.  Takes
the impl state, the input frame, the tick's `video_format_desc` and the
current time (`high_resolution_clock::now()` in microseconds); returns
the new state and the event trace.

Faithful details: the size guard compares against the *stored* format's
size before the format-change check; `auto time = std::move(time_)` does
not disengage a `boost::optional`, so `time_` keeps its value unless the
format-change branch resets it or the pacing branch reassigns it; the
send loop iterates the live `consumers_` map (the snapshot copy taken at
lines 115-119 is never read — the trace records its contents). -/
def dispatch (st : OutputState) (input_frame : Option const_frame)
    (format_desc : video_format_desc) (now : Nat) :
    OutputState × List OutputEvent :=
  match input_frame with
  | none => (st, [])
  | some frame =>
    if frame.size ≠ st.format_desc.size then
      (st, [OutputEvent.logWarning])
    else
      let time := st.time
      if st.format_desc ≠ format_desc then
        let r := reinitConsumers format_desc st.consumers
        ({ st with consumers := r.1, format_desc := format_desc, time := none },
         OutputEvent.lockAcquire :: r.2 ++ [OutputEvent.lockRelease])
      else
        let snapKeys := st.consumers.map Prod.fst
        let s := sendLoop frame st.consumers
        let a := awaitLoop s.2.1 s.1
        let stMap := a.1.map (fun p => ("port/" ++ toString p.1, p.2.stateSnap))
        let needs_sync := a.1.all (fun p => !p.2.sync_clock)
        let pacingEvs := if needs_sync then [pacingEventOf time now] else []
        let time2 :=
          if needs_sync then
            some (time.getD now + 1000000 / st.format_desc.fps)
          else st.time
        ({ st with consumers := a.1, stateMap := stMap, time := time2 },
         OutputEvent.lockAcquire :: OutputEvent.snapshotTaken snapKeys ::
           OutputEvent.lockRelease :: (s.2.2 ++ a.2 ++ pacingEvs))

/-- `output::impl::add(int, consumer)` (lines 63-71): remove any consumer
at that index, `initialize` outside the lock (a throw propagates and the
consumer is not registered), then insert. -/
def add (st : OutputState) (index : Nat) (c : frame_consumer) :
    Option OutputState :=
  let removed := mapErase index st.consumers
  if c.initThrows then none
  else some { st with consumers := removed ++ [(index, c)] }

/-- The indices of the `send` calls in a trace. -/
def sendCallsOf (evs : List OutputEvent) : List Nat :=
  evs.filterMap (fun e => match e with
    | OutputEvent.sendCall i => some i
    | _ => none)

/-- The indices of the future `get()`s in a trace. -/
def futureGetsOf (evs : List OutputEvent) : List Nat :=
  evs.filterMap (fun e => match e with
    | OutputEvent.futureGet i => some i
    | _ => none)

/-- The `initialize` calls (index, format) in a trace. -/
def initCallsOf (evs : List OutputEvent) : List (Nat × video_format_desc) :=
  evs.filterMap (fun e => match e with
    | OutputEvent.initCall i f => some (i, f)
    | _ => none)

/-- Is an event a lock acquisition or release? -/
def isLockEvent : OutputEvent → Bool
  | OutputEvent.lockAcquire => true
  | OutputEvent.lockRelease => true
  | _ => false

/-- Does a `send` call occur somewhere after a future `get()`? -/
def sendAfterGet : List OutputEvent → Bool
  | [] => false
  | OutputEvent.futureGet _ :: rest =>
    !(sendCallsOf rest).isEmpty || sendAfterGet rest
  | _ :: rest => sendAfterGet rest

/-- Does a future `get()` occur somewhere after an eviction? -/
def getAfterEviction : List OutputEvent → Bool
  | [] => false
  | OutputEvent.eviction _ :: rest =>
    !(futureGetsOf rest).isEmpty || getAfterEviction rest
  | _ :: rest => getAfterEviction rest

/-- Number of pacing actions (deadline recordings or blocking sleeps) in
a trace. -/
def pacingCount (evs : List OutputEvent) : Nat :=
  (evs.filter (fun e => match e with
    | OutputEvent.recordNow _ => true
    | OutputEvent.sleepUntil _ => true
    | _ => false)).length

/-- Survivor predicate of one delivery tick: the consumer's `send` neither
threw nor yielded a rejecting/erroring future. -/
def sendOk (c : frame_consumer) : Bool :=
  match c.sendO with
  | SendOutcome.futTrue => true
  | _ => false

/-- Did the consumer's `send` call return (rather than throw), so that a
future was issued for it? -/
def sendIssued (c : frame_consumer) : Bool :=
  match c.sendO with
  | SendOutcome.throws => false
  | _ => true

/-- The future entry the send loop records for one consumer, if any. -/
def futEntry (p : Nat × frame_consumer) : Option (Nat × FutResult) :=
  match p.2.sendO with
  | SendOutcome.throws => none
  | o => some (p.1, futureOf o)

end output

namespace output

/-! Concrete fixtures used by witnesses and counterexamples. -/

/-- A 10-byte, 50 fps format. -/
def exFmt : video_format_desc := ⟨0, 10, 50⟩

/-- A distinct format with the same frame size. -/
def exFmtNew : video_format_desc := ⟨1, 10, 50⟩

/-- A 20-byte format (stored format of the format-change counterexample). -/
def exFmtOld : video_format_desc := ⟨0, 20, 50⟩

/-- A consumer whose future resolves to `true`. -/
def exConsT : frame_consumer := ⟨false, SendOutcome.futTrue, 11, false, 0⟩

/-- A consumer whose future resolves to `false`. -/
def exConsF : frame_consumer := ⟨false, SendOutcome.futFalse, 22, false, 1⟩

/-- A consumer whose `send` raises. -/
def exConsE : frame_consumer := ⟨false, SendOutcome.throws, 33, false, 2⟩

/-- Three consumers: one accepting, one rejecting, one raising. -/
def exSt3 : OutputState := ⟨[], exFmt, [(0, exConsT), (1, exConsF), (2, exConsE)], some 100⟩

/-- An accepting consumer that owns a synchronization clock. -/
def exConsSync : frame_consumer := ⟨false, SendOutcome.futTrue, 7, true, 0⟩

/-- State with one sync-clocked consumer and a previously recorded deadline. -/
def exStSync : OutputState := ⟨[], exFmt, [(0, exConsSync)], some 100⟩

/-- An accepting, clockless consumer. -/
def exConsPlain : frame_consumer := ⟨false, SendOutcome.futTrue, 1, false, 0⟩

/-- State whose stored format has size 20, with one registered consumer. -/
def exStOld : OutputState := ⟨[], exFmtOld, [(0, exConsPlain)], some 5⟩

/-- State with an empty registry and a recorded deadline. -/
def exStEmpty : OutputState := ⟨[], exFmt, [], some 40⟩

end output

namespace video_decoder

/-! Lemmas about the decode worker. -/

/-- The flush loop emits each buffered frame, duplicated, with the loop
element's ticket. -/
theorem flushDecodeLoop_eq_map (t : ticket_t) (fs : List AVFrame) :
    flushDecodeLoop t fs =
      fs.map (fun f => DecEvent.send (FrameMsg.frameMsg (dupF f)) t) := by
  induction fs with
  | nil => rfl
  | cons f fs ih => simp [flushDecodeLoop, ih]

/-- The while-loop body never sends an `eof_video()` marker. -/
theorem runAux_filter_eof (hasDelay : Bool) (isProg : Bool)
    (input : List (Packet × ticket_t)) :
    (runAux hasDelay isProg input).1.filter isEofSend = [] := by
  induction input generalizing isProg with
  | nil => rfl
  | cons e rest ih =>
    obtain ⟨pkt, tk⟩ := e
    cases pkt with
    | loop script =>
      obtain ⟨frames, fin⟩ := script
      have hfl : (flushDecodeLoop tk frames).filter isEofSend = [] := by
        induction frames with
        | nil => rfl
        | cons g gs ihg => simp [flushDecodeLoop, isEofSend, ihg]
      cases hasDelay with
      | false => simpa [runAux, isEofSend] using ih isProg
      | true =>
        cases fin with
        | err => simpa [runAux] using hfl
        | clean =>
          simp [runAux, List.filter_append, hfl, isEofSend, ih isProg]
    | eof => simp [runAux]
    | data outcome =>
      cases outcome with
      | err => simp [runAux]
      | noFrame => simpa [runAux] using ih isProg
      | frame f => simpa [runAux, isEofSend] using ih (!f.interlaced_frame)

/-- Claim C1: whenever the decode worker's main loop exits — on the `Eof`
sentinel or because an external decode failure was raised on any path —
the worker emits exactly one `EofSignal` as the final marker on its output
channel, no further markers follow it, and the worker terminates without
retrying. -/
theorem decoder_run_single_final_eof (hasDelay : Bool)
    (input : List (Packet × ticket_t))
    (h : (run hasDelay input).2.1 = WorkerStatus.exited) :
    (run hasDelay input).1.getLast? =
      some (DecEvent.send FrameMsg.eofMsg defaultTicket) ∧
    (run hasDelay input).1.filter isEofSend =
      [DecEvent.send FrameMsg.eofMsg defaultTicket] := by
  have hfe := runAux_filter_eof hasDelay true input
  have hrun : run hasDelay input =
      ((runAux hasDelay true input).1 ++
          [DecEvent.send FrameMsg.eofMsg defaultTicket],
        WorkerStatus.exited, (runAux hasDelay true input).2.2) := by
    unfold run at h ⊢
    rcases hx : runAux hasDelay true input with ⟨evs, stt, p⟩
    rw [hx] at h
    cases stt
    · simp at h
    · rfl
  rw [hrun]
  constructor
  · simp [List.getLast?_concat]
  · simp only [List.filter_append, hfe]
    simp [isEofSend]

/-- Witness for C1 at a concrete input: a data packet whose decode throws
(the fatal-to-stream path). -/
theorem decoder_run_single_final_eof_witness :
    (run true [(Packet.data DataOutcome.err, 3)]).2.1 = WorkerStatus.exited ∧
    ((run true [(Packet.data DataOutcome.err, 3)]).1.getLast? =
        some (DecEvent.send FrameMsg.eofMsg defaultTicket) ∧
      (run true [(Packet.data DataOutcome.err, 3)]).1.filter isEofSend =
        [DecEvent.send FrameMsg.eofMsg defaultTicket]) :=
  ⟨by decide, decoder_run_single_final_eof true _ (by decide)⟩

/-- Claim C2: for a `Loop` packet received by a running worker whose codec
reports internal frame delay (and whose flush decodes do not error), the
worker emits the codec's buffered frames (each duplicated), then flushes
the codec state, then exactly one `LoopSignal`, and stays alive accepting
further packets; the `Eof` path performs no flush. -/
theorem decoder_loop_flush_protocol (isProg : Bool) (frames : List AVFrame)
    (tk : ticket_t) (rest : List (Packet × ticket_t)) :
    runAux true isProg ((Packet.loop ⟨frames, FlushEnd.clean⟩, tk) :: rest) =
      (frames.map (fun f => DecEvent.send (FrameMsg.frameMsg (dupF f)) tk) ++
        DecEvent.flushCodec :: DecEvent.send FrameMsg.loopMsg defaultTicket ::
          (runAux true isProg rest).1,
       (runAux true isProg rest).2.1, (runAux true isProg rest).2.2) ∧
    (run true [(Packet.loop ⟨frames, FlushEnd.clean⟩, tk)]).2.1 =
      WorkerStatus.waiting ∧
    (run true ((Packet.eof, tk) :: rest)).1 =
      [DecEvent.send FrameMsg.eofMsg defaultTicket] := by
  refine ⟨by simp [runAux, flushDecodeLoop_eq_map], ?_, rfl⟩
  unfold run
  simp [runAux]

/-- Counterexample to claim C8: the worker's only response to a `Loop`
packet carrying ticket `5` is a `LoopSignal` carrying the default ticket
`0`, not the packet's ticket (`send(target_, target_element_t(loop_video(),
ticket_t()))` at line 140). -/
theorem decoder_loop_ticket_counterexample :
    (run false [(Packet.loop ⟨[], FlushEnd.clean⟩, 5)]).1 =
      [DecEvent.flushCodec, DecEvent.send FrameMsg.loopMsg 0] ∧
    (0 : ticket_t) ≠ 5 := by
  exact ⟨rfl, by decide⟩

/-- Amended C8: frame markers — those decoded from a data packet and those
flushed while handling a `Loop` packet — carry the triggering packet's
ticket unchanged, while `LoopSignal` and `EofSignal` are sent with a fresh
default-constructed ticket. -/
theorem decoder_ticket_passthrough_amended (hasDelay isProg : Bool)
    (f : AVFrame) (tk : ticket_t) (frames : List AVFrame)
    (rest : List (Packet × ticket_t)) :
    (runAux hasDelay isProg ((Packet.data (DataOutcome.frame f), tk) :: rest)).1 =
      DecEvent.send (FrameMsg.frameMsg (dupF f)) tk ::
        (runAux hasDelay (!f.interlaced_frame) rest).1 ∧
    flushDecodeLoop tk frames =
      frames.map (fun g => DecEvent.send (FrameMsg.frameMsg (dupF g)) tk) ∧
    (runAux true isProg ((Packet.loop ⟨frames, FlushEnd.clean⟩, tk) :: rest)).1 =
      flushDecodeLoop tk frames ++
        DecEvent.flushCodec :: DecEvent.send FrameMsg.loopMsg defaultTicket ::
          (runAux true isProg rest).1 ∧
    (run hasDelay ((Packet.eof, tk) :: rest)).1 =
      [DecEvent.send FrameMsg.eofMsg defaultTicket] := by
  refine ⟨by simp [runAux], flushDecodeLoop_eq_map tk frames,
    by simp [runAux], ?_⟩
  cases hasDelay <;> rfl

end video_decoder

namespace output

/-! Lemmas about the output dispatcher. -/

/-- Stepping the await loop over an accepting future. -/
theorem awaitLoop_accepted (i : Nat) (futs : List (Nat × FutResult))
    (live : List (Nat × frame_consumer)) :
    awaitLoop ((i, FutResult.accepted) :: futs) live =
      ((awaitLoop futs live).1,
        OutputEvent.futureGet i :: (awaitLoop futs live).2) := rfl

/-- Stepping the await loop over a rejecting future. -/
theorem awaitLoop_rejected (i : Nat) (futs : List (Nat × FutResult))
    (live : List (Nat × frame_consumer)) :
    awaitLoop ((i, FutResult.rejected) :: futs) live =
      ((awaitLoop futs (mapErase i live)).1,
        OutputEvent.futureGet i :: OutputEvent.eviction i ::
          (awaitLoop futs (mapErase i live)).2) := rfl

/-- Stepping the await loop over an erroring future. -/
theorem awaitLoop_errored (i : Nat) (futs : List (Nat × FutResult))
    (live : List (Nat × frame_consumer)) :
    awaitLoop ((i, FutResult.errored) :: futs) live =
      ((awaitLoop futs (mapErase i live)).1,
        OutputEvent.futureGet i :: OutputEvent.logError ::
          OutputEvent.eviction i ::
          (awaitLoop futs (mapErase i live)).2) := rfl

/-- The format-change loop keeps exactly the consumers whose `initialize`
succeeded, calls `initialize(fmt, index)` on every registered consumer,
and performs no `send`. -/
theorem reinitConsumers_spec (fmt : video_format_desc) :
    ∀ cs : List (Nat × frame_consumer),
      (reinitConsumers fmt cs).1 = cs.filter (fun p => !p.2.initThrows) ∧
      initCallsOf (reinitConsumers fmt cs).2 = cs.map (fun p => (p.1, fmt)) ∧
      sendCallsOf (reinitConsumers fmt cs).2 = [] := by
  intro cs
  induction cs with
  | nil => exact ⟨rfl, rfl, rfl⟩
  | cons pc rest ih =>
    obtain ⟨i, c⟩ := pc
    obtain ⟨h1, h2, h3⟩ := ih
    simp only [initCallsOf, sendCallsOf] at h2 h3 ⊢
    by_cases hc : c.initThrows <;>
      simp [reinitConsumers, hc, h1, h2, h3]

/-- The send loop: live survivors are the consumers whose `send` did not
throw, the futures are their entries, every consumer receives exactly one
`send` call, and the loop performs no awaits, lock actions, pacing or
`initialize`. -/
theorem sendLoop_spec (frame : const_frame) :
    ∀ cs : List (Nat × frame_consumer),
      (sendLoop frame cs).1 = cs.filter (fun p => sendIssued p.2) ∧
      (sendLoop frame cs).2.1 = cs.filterMap futEntry ∧
      sendCallsOf (sendLoop frame cs).2.2 = cs.map Prod.fst ∧
      futureGetsOf (sendLoop frame cs).2.2 = [] ∧
      (sendLoop frame cs).2.2.filter isLockEvent = [] ∧
      pacingCount (sendLoop frame cs).2.2 = 0 ∧
      initCallsOf (sendLoop frame cs).2.2 = [] := by
  intro cs
  induction cs with
  | nil => exact ⟨rfl, rfl, rfl, rfl, rfl, rfl, rfl⟩
  | cons pc rest ih =>
    obtain ⟨i, c⟩ := pc
    obtain ⟨h1, h2, h3, h4, h5, h6, h7⟩ := ih
    simp only [sendCallsOf, futureGetsOf, initCallsOf, pacingCount]
      at h3 h4 h6 h7 ⊢
    cases hso : c.sendO <;>
      simp [sendLoop, hso, sendIssued, futEntry, futureOf, isLockEvent,
        h1, h2, h3, h4, h5, h6, h7]

/-- The await loop `get()`s every future exactly once, in order, and
performs no sends, lock actions, pacing or `initialize`. -/
theorem awaitLoop_events :
    ∀ (futs : List (Nat × FutResult)) (live : List (Nat × frame_consumer)),
      futureGetsOf (awaitLoop futs live).2 = futs.map Prod.fst ∧
      sendCallsOf (awaitLoop futs live).2 = [] ∧
      (awaitLoop futs live).2.filter isLockEvent = [] ∧
      pacingCount (awaitLoop futs live).2 = 0 ∧
      initCallsOf (awaitLoop futs live).2 = [] := by
  intro futs
  induction futs with
  | nil => exact fun live => ⟨rfl, rfl, rfl, rfl, rfl⟩
  | cons qf rest ih =>
    intro live
    obtain ⟨i, fr⟩ := qf
    obtain ⟨a1, a2, a3, a4, a5⟩ := ih live
    obtain ⟨b1, b2, b3, b4, b5⟩ := ih (mapErase i live)
    simp only [futureGetsOf, sendCallsOf, initCallsOf, pacingCount]
      at a1 a2 a4 a5 b1 b2 b4 b5 ⊢
    cases fr <;>
      simp [awaitLoop_accepted, awaitLoop_rejected, awaitLoop_errored,
        isLockEvent, a1, a2, a3, a4, a5, b1, b2, b3, b4, b5]

/-- A live-map entry whose key matches no pending future survives the
await loop untouched, in place. -/
theorem awaitLoop_cons_skip :
    ∀ (futs : List (Nat × FutResult)) (x : Nat × frame_consumer)
      (live : List (Nat × frame_consumer)),
      x.1 ∉ futs.map Prod.fst →
      (awaitLoop futs (x :: live)).1 = x :: (awaitLoop futs live).1 := by
  intro futs
  induction futs with
  | nil => intro x live _; rfl
  | cons qf rest ih =>
    intro x live hx
    obtain ⟨i, fr⟩ := qf
    simp only [List.map_cons, List.mem_cons, not_or] at hx
    have hne : ¬ (x.1 = i) := hx.1
    cases fr <;>
      simp [awaitLoop_accepted, awaitLoop_rejected, awaitLoop_errored,
        mapErase, hne, ih x _ hx.2, ih x live hx.2]

/-- Keys of issued futures come from the registry keys. -/
theorem futEntry_mem_keys :
    ∀ (cs : List (Nat × frame_consumer)) (q : Nat × FutResult),
      q ∈ cs.filterMap futEntry → q.1 ∈ cs.map Prod.fst := by
  intro cs
  induction cs with
  | nil => intro q h; simp at h
  | cons pc rest ih =>
    intro q h
    obtain ⟨i, c⟩ := pc
    rw [List.filterMap_cons] at h
    cases hso : c.sendO with
    | throws =>
      rw [show futEntry (i, c) = none by simp [futEntry, hso]] at h
      exact List.mem_cons_of_mem _ (ih q h)
    | futTrue =>
      rw [show futEntry (i, c) = some (i, FutResult.accepted) by
        simp [futEntry, hso, futureOf]] at h
      rcases List.mem_cons.mp h with h0 | h1
      · subst h0; simp
      · exact List.mem_cons_of_mem _ (ih q h1)
    | futFalse =>
      rw [show futEntry (i, c) = some (i, FutResult.rejected) by
        simp [futEntry, hso, futureOf]] at h
      rcases List.mem_cons.mp h with h0 | h1
      · subst h0; simp
      · exact List.mem_cons_of_mem _ (ih q h1)
    | futThrows =>
      rw [show futEntry (i, c) = some (i, FutResult.errored) by
        simp [futEntry, hso, futureOf]] at h
      rcases List.mem_cons.mp h with h0 | h1
      · subst h0; simp
      · exact List.mem_cons_of_mem _ (ih q h1)

/-- Survivors of one delivery tick (send loop then await loop) are exactly
the consumers whose `send` produced an accepting future. -/
theorem delivery_survivors (frame : const_frame) :
    ∀ cs : List (Nat × frame_consumer), (cs.map Prod.fst).Nodup →
      (awaitLoop (sendLoop frame cs).2.1 (sendLoop frame cs).1).1 =
        cs.filter (fun p => sendOk p.2) := by
  intro cs
  induction cs with
  | nil => intro _; rfl
  | cons pc rest ih =>
    intro hnd
    obtain ⟨i, c⟩ := pc
    rw [List.map_cons, List.nodup_cons] at hnd
    have hnot : (i : Nat) ∉ ((sendLoop frame rest).2.1).map Prod.fst := by
      intro hmem2
      rcases List.mem_map.mp hmem2 with ⟨q, hq, hq1⟩
      have hk := futEntry_mem_keys rest q ((sendLoop_spec frame rest).2.1 ▸ hq)
      exact hnd.1 (hq1 ▸ hk)
    cases hso : c.sendO with
    | throws =>
      have hs : sendLoop frame ((i, c) :: rest) =
          ((sendLoop frame rest).1, (sendLoop frame rest).2.1,
            OutputEvent.sendCall i :: OutputEvent.logError ::
              OutputEvent.eviction i :: (sendLoop frame rest).2.2) := by
        simp [sendLoop, hso]
      rw [hs]
      simp only []
      rw [ih hnd.2]
      simp [sendOk, hso]
    | futTrue =>
      have hs : sendLoop frame ((i, c) :: rest) =
          ((i, c) :: (sendLoop frame rest).1,
            (i, FutResult.accepted) :: (sendLoop frame rest).2.1,
            OutputEvent.sendCall i :: (sendLoop frame rest).2.2) := by
        simp [sendLoop, hso, futureOf]
      rw [hs]
      simp only [awaitLoop_accepted]
      rw [awaitLoop_cons_skip _ (i, c) _ hnot]
      rw [ih hnd.2]
      simp [sendOk, hso]
    | futFalse =>
      have hs : sendLoop frame ((i, c) :: rest) =
          ((i, c) :: (sendLoop frame rest).1,
            (i, FutResult.rejected) :: (sendLoop frame rest).2.1,
            OutputEvent.sendCall i :: (sendLoop frame rest).2.2) := by
        simp [sendLoop, hso, futureOf]
      rw [hs]
      simp only [awaitLoop_rejected]
      rw [show mapErase i ((i, c) :: (sendLoop frame rest).1) =
          (sendLoop frame rest).1 by simp [mapErase]]
      rw [ih hnd.2]
      simp [sendOk, hso]
    | futThrows =>
      have hs : sendLoop frame ((i, c) :: rest) =
          ((i, c) :: (sendLoop frame rest).1,
            (i, FutResult.errored) :: (sendLoop frame rest).2.1,
            OutputEvent.sendCall i :: (sendLoop frame rest).2.2) := by
        simp [sendLoop, hso, futureOf]
      rw [hs]
      simp only [awaitLoop_errored]
      rw [show mapErase i ((i, c) :: (sendLoop frame rest).1) =
          (sendLoop frame rest).1 by simp [mapErase]]
      rw [ih hnd.2]
      simp [sendOk, hso]

/-- The delivery-path tick, decomposed into its component loops. -/
theorem dispatch_delivery_eq (st : OutputState) (f : const_frame)
    (fmt : video_format_desc) (now : Nat)
    (hsz : f.size = st.format_desc.size) (hfm : st.format_desc = fmt) :
    dispatch st (some f) fmt now =
      ({ st with
          consumers := (awaitLoop (sendLoop f st.consumers).2.1
            (sendLoop f st.consumers).1).1,
          stateMap := ((awaitLoop (sendLoop f st.consumers).2.1
              (sendLoop f st.consumers).1).1).map
            (fun p => ("port/" ++ toString p.1, p.2.stateSnap)),
          time :=
            if (awaitLoop (sendLoop f st.consumers).2.1
                  (sendLoop f st.consumers).1).1.all
                (fun p => !p.2.sync_clock) then
              some (st.time.getD now + 1000000 / st.format_desc.fps)
            else st.time },
        OutputEvent.lockAcquire ::
          OutputEvent.snapshotTaken (st.consumers.map Prod.fst) ::
          OutputEvent.lockRelease ::
          ((sendLoop f st.consumers).2.2 ++
            (awaitLoop (sendLoop f st.consumers).2.1
              (sendLoop f st.consumers).1).2 ++
            if (awaitLoop (sendLoop f st.consumers).2.1
                  (sendLoop f st.consumers).1).1.all
                (fun p => !p.2.sync_clock) then
              [pacingEventOf st.time now]
            else [])) := by
  simp only [dispatch]
  rw [if_neg (show ¬ (f.size ≠ st.format_desc.size) by simp [hsz])]
  rw [if_neg (show ¬ (st.format_desc ≠ fmt) by simp [hfm])]

end output

namespace output

/-- Future keys are the keys of the consumers whose `send` returned. -/
theorem futEntry_keys_eq :
    ∀ cs : List (Nat × frame_consumer),
      (cs.filterMap futEntry).map Prod.fst =
        (cs.filter (fun p => sendIssued p.2)).map Prod.fst := by
  intro cs
  induction cs with
  | nil => rfl
  | cons pc rest ih =>
    obtain ⟨i, c⟩ := pc
    cases hso : c.sendO <;>
      simp [List.filterMap_cons, futEntry, hso, sendIssued, futureOf, ih]

/-- A trace with no send calls has no send after a future `get()`. -/
theorem sendAfterGet_of_no_sends :
    ∀ evs : List OutputEvent, sendCallsOf evs = [] → sendAfterGet evs = false := by
  intro evs
  induction evs with
  | nil => intro _; rfl
  | cons e rest ih =>
    intro h
    have hrest : sendCallsOf rest = [] := by
      cases e <;> (try simp [sendCallsOf, List.filterMap_cons] at h) <;>
        exact List.filterMap_eq_nil_iff.mpr h
    cases e <;> simp [sendAfterGet, hrest, ih hrest]

/-- Prepending get-free events preserves absence of sends-after-gets. -/
theorem sendAfterGet_append_no_gets :
    ∀ (xs ys : List OutputEvent), futureGetsOf xs = [] →
      sendAfterGet ys = false → sendAfterGet (xs ++ ys) = false := by
  intro xs
  induction xs with
  | nil => intro ys _ hy; exact hy
  | cons e rest ih =>
    intro ys hx hy
    cases e <;> simp [futureGetsOf, List.filterMap_cons] at hx <;>
      simpa [sendAfterGet, List.cons_append] using
        ih ys (List.filterMap_eq_nil_iff.mpr hx) hy

/-- The optional pacing step contains no sends, awaits, lock actions or
`initialize` calls. -/
theorem pacing_opt_events (b : Bool) (t : Option Nat) (n : Nat) :
    sendCallsOf (if b then [pacingEventOf t n] else []) = [] ∧
    futureGetsOf (if b then [pacingEventOf t n] else []) = [] ∧
    (if b then [pacingEventOf t n] else []).filter isLockEvent = [] ∧
    initCallsOf (if b then [pacingEventOf t n] else []) = [] := by
  cases b <;> cases t <;>
    simp [pacingEventOf, sendCallsOf, futureGetsOf, initCallsOf, isLockEvent]

/-- Counterexample to claim C3 (eviction timing): on a delivery tick over
three consumers, of which one's `send` throws and one's future resolves
`false`, an eviction is applied before the remaining futures have been
awaited — the tick does not wait for all results before the first
eviction decision. -/
theorem dispatch_await_order_counterexample :
    getAfterEviction (dispatch exSt3 (some ⟨10⟩) exFmt 999).2 = true ∧
    (dispatch exSt3 (some ⟨10⟩) exFmt 999).2 =
      [OutputEvent.lockAcquire, OutputEvent.snapshotTaken [0, 1, 2],
        OutputEvent.lockRelease, OutputEvent.sendCall 0,
        OutputEvent.sendCall 1, OutputEvent.sendCall 2,
        OutputEvent.logError, OutputEvent.eviction 2,
        OutputEvent.futureGet 0, OutputEvent.futureGet 1,
        OutputEvent.eviction 1, OutputEvent.sleepUntil 100] := by
  exact ⟨by decide, by decide⟩

/-- Amended C3: on a delivery tick the registry is copied under the lock
and the lock is released before any consumer call; `send(frame)` is then
invoked exactly once for every consumer in that point-in-time copy (the
code iterates the live registry, whose contents coincide with the copy);
all sends are issued before any result is awaited, every issued future is
awaited, and the lock is never held across a send. -/
theorem dispatch_snapshot_send_amended (st : OutputState) (f : const_frame)
    (fmt : video_format_desc) (now : Nat)
    (hsz : f.size = st.format_desc.size) (hfm : st.format_desc = fmt) :
    (dispatch st (some f) fmt now).2.take 3 =
      [OutputEvent.lockAcquire,
        OutputEvent.snapshotTaken (st.consumers.map Prod.fst),
        OutputEvent.lockRelease] ∧
    ((dispatch st (some f) fmt now).2.drop 3).filter isLockEvent = [] ∧
    sendCallsOf (dispatch st (some f) fmt now).2 = st.consumers.map Prod.fst ∧
    futureGetsOf (dispatch st (some f) fmt now).2 =
      (st.consumers.filter (fun p => sendIssued p.2)).map Prod.fst ∧
    sendAfterGet (dispatch st (some f) fmt now).2 = false := by
  rw [dispatch_delivery_eq st f fmt now hsz hfm]
  obtain ⟨s1, s2, s3, s4, s5, s6, s7⟩ := sendLoop_spec f st.consumers
  obtain ⟨a1, a2, a3, a4, a5⟩ :=
    awaitLoop_events (sendLoop f st.consumers).2.1 (sendLoop f st.consumers).1
  obtain ⟨p1, p2, p3, p4⟩ :=
    pacing_opt_events
      ((awaitLoop (sendLoop f st.consumers).2.1
          (sendLoop f st.consumers).1).1.all (fun p => !p.2.sync_clock))
      st.time now
  refine ⟨rfl, ?_, ?_, ?_, ?_⟩
  · simp [List.filter_append, s5, a3, p3]
  · simp only [sendCallsOf, List.filterMap_cons, List.filterMap_append] at s3 a2 p1 ⊢
    simp [s3, a2, p1]
  · simp only [futureGetsOf, List.filterMap_cons, List.filterMap_append]
      at s4 a1 p2 ⊢
    simp [s4, a1, p2]
    rw [s2]
    exact futEntry_keys_eq st.consumers
  · have htail : sendAfterGet
        ((awaitLoop (sendLoop f st.consumers).2.1
            (sendLoop f st.consumers).1).2 ++
          (if (awaitLoop (sendLoop f st.consumers).2.1
                (sendLoop f st.consumers).1).1.all (fun p => !p.2.sync_clock)
            then [pacingEventOf st.time now] else [])) = false := by
      apply sendAfterGet_of_no_sends
      simp only [sendCallsOf, List.filterMap_append] at a2 p1 ⊢
      simp [a2, p1]
    have hall : sendAfterGet
        ((sendLoop f st.consumers).2.2 ++
          ((awaitLoop (sendLoop f st.consumers).2.1
              (sendLoop f st.consumers).1).2 ++
            (if (awaitLoop (sendLoop f st.consumers).2.1
                  (sendLoop f st.consumers).1).1.all (fun p => !p.2.sync_clock)
              then [pacingEventOf st.time now] else []))) = false :=
      sendAfterGet_append_no_gets _ _ s4 htail
    simp [sendAfterGet, List.append_assoc, hall]

/-- Witness for the amended C3 at the three-consumer fixture. -/
theorem dispatch_snapshot_send_amended_witness :
    (const_frame.mk 10).size = exSt3.format_desc.size ∧
    exSt3.format_desc = exFmt ∧
    ((dispatch exSt3 (some ⟨10⟩) exFmt 999).2.take 3 =
      [OutputEvent.lockAcquire,
        OutputEvent.snapshotTaken (exSt3.consumers.map Prod.fst),
        OutputEvent.lockRelease] ∧
    ((dispatch exSt3 (some ⟨10⟩) exFmt 999).2.drop 3).filter isLockEvent = [] ∧
    sendCallsOf (dispatch exSt3 (some ⟨10⟩) exFmt 999).2 =
      exSt3.consumers.map Prod.fst ∧
    futureGetsOf (dispatch exSt3 (some ⟨10⟩) exFmt 999).2 =
      (exSt3.consumers.filter (fun p => sendIssued p.2)).map Prod.fst ∧
    sendAfterGet (dispatch exSt3 (some ⟨10⟩) exFmt 999).2 = false) :=
  ⟨by decide, by decide,
    dispatch_snapshot_send_amended exSt3 ⟨10⟩ exFmt 999 (by decide) (by decide)⟩

end output

namespace output

/-- Claim C4: after one delivery tick every consumer whose `send` raised
(at the call or at `get()`) or whose future resolved `false` has been
removed from the live registry, every other consumer remains, and the
aggregated diagnostic state maps exactly `"port/<index>"` to `state()` of
the survivors. -/
theorem dispatch_evicts_failed (st : OutputState) (f : const_frame)
    (fmt : video_format_desc) (now : Nat)
    (hsz : f.size = st.format_desc.size) (hfm : st.format_desc = fmt)
    (hnd : (st.consumers.map Prod.fst).Nodup) :
    (dispatch st (some f) fmt now).1.consumers =
      st.consumers.filter (fun p => sendOk p.2) ∧
    (dispatch st (some f) fmt now).1.stateMap =
      (st.consumers.filter (fun p => sendOk p.2)).map
        (fun p => ("port/" ++ toString p.1, p.2.stateSnap)) := by
  rw [dispatch_delivery_eq st f fmt now hsz hfm]
  constructor <;> simp [delivery_survivors f st.consumers hnd]

/-- Witness for C4: of three consumers — accepting, rejecting, raising —
exactly the accepting one survives and the state map has only its entry. -/
theorem dispatch_evicts_failed_witness :
    (const_frame.mk 10).size = exSt3.format_desc.size ∧
    exSt3.format_desc = exFmt ∧
    (exSt3.consumers.map Prod.fst).Nodup ∧
    ((dispatch exSt3 (some ⟨10⟩) exFmt 999).1.consumers =
      exSt3.consumers.filter (fun p => sendOk p.2) ∧
    (dispatch exSt3 (some ⟨10⟩) exFmt 999).1.stateMap =
      (exSt3.consumers.filter (fun p => sendOk p.2)).map
        (fun p => ("port/" ++ toString p.1, p.2.stateSnap))) :=
  ⟨by decide, by decide, by decide,
    dispatch_evicts_failed exSt3 ⟨10⟩ exFmt 999 (by decide) (by decide)
      (by decide)⟩

/-- Counterexample to claim C5 (deadline reset): with one surviving
consumer that owns a synchronization clock and a previously recorded
deadline, the tick performs no pacing action but leaves the stored
deadline set (`auto time = std::move(time_)` does not disengage a
`boost::optional`), not unset as claimed. -/
theorem dispatch_sync_clock_counterexample :
    (dispatch exStSync (some ⟨10⟩) exFmt 999).1.time = some 100 ∧
    some (100 : Nat) ≠ (none : Option Nat) ∧
    pacingCount (dispatch exStSync (some ⟨10⟩) exFmt 999).2 = 0 := by
  exact ⟨by decide, by decide, by decide⟩

/-- The last event of a delivery-tick trace whose tail segment is a
singleton. -/
theorem trace_getLast (z : OutputEvent) (A B : List OutputEvent)
    (p : OutputEvent) :
    (z :: (A ++ (B ++ [p]))).getLast? = some p := by
  rw [show z :: (A ++ (B ++ [p])) = ([z] ++ A ++ B) ++ [p] by simp]
  exact List.getLast?_concat _

/-- Amended C5: on a delivery tick, if no surviving consumer owns a
synchronization clock the dispatcher self-paces — recording the current
time when no deadline was set, otherwise blocking until the recorded
deadline — and stores `deadline + 1000000 / fps` microseconds as the next
deadline; if some surviving consumer owns a synchronization clock, no
pacing action is performed and the stored deadline keeps its previous
value (it is not cleared). -/
theorem dispatch_pacing_amended (st : OutputState) (f : const_frame)
    (fmt : video_format_desc) (now : Nat)
    (hsz : f.size = st.format_desc.size) (hfm : st.format_desc = fmt)
    (hnd : (st.consumers.map Prod.fst).Nodup) :
    ((st.consumers.filter (fun p => sendOk p.2)).all
        (fun p => !p.2.sync_clock) = true →
      (dispatch st (some f) fmt now).1.time =
        some (st.time.getD now + 1000000 / st.format_desc.fps) ∧
      (dispatch st (some f) fmt now).2.getLast? =
        some (pacingEventOf st.time now)) ∧
    ((st.consumers.filter (fun p => sendOk p.2)).all
        (fun p => !p.2.sync_clock) = false →
      (dispatch st (some f) fmt now).1.time = st.time ∧
      pacingCount (dispatch st (some f) fmt now).2 = 0) := by
  rw [dispatch_delivery_eq st f fmt now hsz hfm]
  rw [delivery_survivors f st.consumers hnd]
  obtain ⟨s1, s2, s3, s4, s5, s6, s7⟩ := sendLoop_spec f st.consumers
  obtain ⟨a1, a2, a3, a4, a5⟩ :=
    awaitLoop_events (sendLoop f st.consumers).2.1 (sendLoop f st.consumers).1
  constructor
  · intro hb
    rw [hb]
    constructor
    · simp
    · simp [trace_getLast]
  · intro hb
    rw [hb]
    refine ⟨by simp, ?_⟩
    simp only [pacingCount, List.filter_append] at s6 a4 ⊢
    simp [s6, a4, isLockEvent]

/-- Witness for the amended C5 at the three-consumer fixture (survivor is
clockless, previous deadline 100, fps 50: blocks until 100 and stores
20100). -/
theorem dispatch_pacing_amended_witness :
    (const_frame.mk 10).size = exSt3.format_desc.size ∧
    exSt3.format_desc = exFmt ∧
    (exSt3.consumers.map Prod.fst).Nodup ∧
    (((exSt3.consumers.filter (fun p => sendOk p.2)).all
        (fun p => !p.2.sync_clock) = true →
      (dispatch exSt3 (some ⟨10⟩) exFmt 999).1.time =
        some (exSt3.time.getD 999 + 1000000 / exSt3.format_desc.fps) ∧
      (dispatch exSt3 (some ⟨10⟩) exFmt 999).2.getLast? =
        some (pacingEventOf exSt3.time 999)) ∧
    ((exSt3.consumers.filter (fun p => sendOk p.2)).all
        (fun p => !p.2.sync_clock) = false →
      (dispatch exSt3 (some ⟨10⟩) exFmt 999).1.time = exSt3.time ∧
      pacingCount (dispatch exSt3 (some ⟨10⟩) exFmt 999).2 = 0)) :=
  ⟨by decide, by decide, by decide,
    dispatch_pacing_amended exSt3 ⟨10⟩ exFmt 999 (by decide) (by decide)
      (by decide)⟩

/-- Counterexample to claim C6: dispatching a frame sized for the *new*
format together with the new format hits the size guard (which compares
against the *stored* format's size, line 92) and returns after a warning:
no consumer is initialized and the current format is not updated. -/
theorem dispatch_format_change_counterexample :
    dispatch exStOld (some ⟨10⟩) exFmtNew 0 = (exStOld, [OutputEvent.logWarning]) ∧
    exStOld.format_desc ≠ exFmtNew ∧
    initCallsOf (dispatch exStOld (some ⟨10⟩) exFmtNew 0).2 = [] ∧
    (dispatch exStOld (some ⟨10⟩) exFmtNew 0).1.format_desc ≠ exFmtNew := by
  exact ⟨by decide, by decide, by decide, by decide⟩

/-- Amended C6: when dispatch is called with a present frame of the
*currently configured* size and a format different from the current one,
it calls `initialize(new format, index)` on every registered consumer,
evicts every consumer whose `initialize` throws, updates the current
format, resets the pacing deadline to unset, and returns without any
`send`. -/
theorem dispatch_format_change_amended (st : OutputState) (f : const_frame)
    (fmt : video_format_desc) (now : Nat)
    (hsz : f.size = st.format_desc.size) (hne : st.format_desc ≠ fmt) :
    (dispatch st (some f) fmt now).1.consumers =
      st.consumers.filter (fun p => !p.2.initThrows) ∧
    (dispatch st (some f) fmt now).1.format_desc = fmt ∧
    (dispatch st (some f) fmt now).1.time = none ∧
    initCallsOf (dispatch st (some f) fmt now).2 =
      st.consumers.map (fun p => (p.1, fmt)) ∧
    sendCallsOf (dispatch st (some f) fmt now).2 = [] := by
  have hd : dispatch st (some f) fmt now =
      ({ st with
          consumers := (reinitConsumers fmt st.consumers).1,
          format_desc := fmt,
          time := none },
        OutputEvent.lockAcquire :: (reinitConsumers fmt st.consumers).2 ++
          [OutputEvent.lockRelease]) := by
    simp only [dispatch]
    rw [if_neg (show ¬ (f.size ≠ st.format_desc.size) by simp [hsz])]
    rw [if_pos hne]
  rw [hd]
  obtain ⟨r1, r2, r3⟩ := reinitConsumers_spec fmt st.consumers
  refine ⟨r1, rfl, rfl, ?_, ?_⟩
  · simp only [initCallsOf, List.filterMap_cons, List.filterMap_append]
      at r2 ⊢
    simp [r2]
  · simp only [sendCallsOf, List.filterMap_cons, List.filterMap_append]
      at r3 ⊢
    simp [r3]

/-- Witness for the amended C6: a format change over the three-consumer
fixture initializes all three with the new format and delivers nothing. -/
theorem dispatch_format_change_amended_witness :
    (const_frame.mk 10).size = exSt3.format_desc.size ∧
    exSt3.format_desc ≠ exFmtNew ∧
    ((dispatch exSt3 (some ⟨10⟩) exFmtNew 0).1.consumers =
      exSt3.consumers.filter (fun p => !p.2.initThrows) ∧
    (dispatch exSt3 (some ⟨10⟩) exFmtNew 0).1.format_desc = exFmtNew ∧
    (dispatch exSt3 (some ⟨10⟩) exFmtNew 0).1.time = none ∧
    initCallsOf (dispatch exSt3 (some ⟨10⟩) exFmtNew 0).2 =
      exSt3.consumers.map (fun p => (p.1, exFmtNew)) ∧
    sendCallsOf (dispatch exSt3 (some ⟨10⟩) exFmtNew 0).2 = []) :=
  ⟨by decide, by decide,
    dispatch_format_change_amended exSt3 ⟨10⟩ exFmtNew 0 (by decide)
      (by decide)⟩

/-- Claim C7: an absent frame is a silent no-op; a frame whose size
differs from the configured format's size logs a warning and is dropped —
in both cases no consumer's `send` is reached and the registry, current
format, pacing deadline and aggregated state are unchanged. -/
theorem dispatch_guard_noop (st : OutputState) (fmt : video_format_desc)
    (now : Nat) (f : const_frame)
    (hsz : f.size ≠ st.format_desc.size) :
    dispatch st none fmt now = (st, []) ∧
    dispatch st (some f) fmt now = (st, [OutputEvent.logWarning]) ∧
    sendCallsOf (dispatch st (some f) fmt now).2 = [] ∧
    sendCallsOf (dispatch st none fmt now).2 = [] := by
  have h2 : dispatch st (some f) fmt now = (st, [OutputEvent.logWarning]) := by
    simp only [dispatch]
    rw [if_pos hsz]
  exact ⟨rfl, h2, by rw [h2]; rfl, rfl⟩

/-- Witness for C7 at the three-consumer fixture with a 7-byte frame. -/
theorem dispatch_guard_noop_witness :
    (const_frame.mk 7).size ≠ exSt3.format_desc.size ∧
    (dispatch exSt3 none exFmt 999 = (exSt3, []) ∧
    dispatch exSt3 (some ⟨7⟩) exFmt 999 = (exSt3, [OutputEvent.logWarning]) ∧
    sendCallsOf (dispatch exSt3 (some ⟨7⟩) exFmt 999).2 = [] ∧
    sendCallsOf (dispatch exSt3 none exFmt 999).2 = []) :=
  ⟨by decide, dispatch_guard_noop exSt3 exFmt 999 ⟨7⟩ (by decide)⟩

/-- Claim C10: with an empty consumer registry the no-synchronization-
clock condition holds vacuously, so a delivery tick still self-paces:
it records or blocks on the deadline exactly as with clockless consumers
and stores `deadline + 1000000 / fps` as the next deadline. -/
theorem dispatch_empty_registry_paces (st : OutputState) (f : const_frame)
    (fmt : video_format_desc) (now : Nat)
    (hsz : f.size = st.format_desc.size) (hfm : st.format_desc = fmt)
    (hemp : st.consumers = []) :
    (dispatch st (some f) fmt now).1.time =
      some (st.time.getD now + 1000000 / st.format_desc.fps) ∧
    (dispatch st (some f) fmt now).2.getLast? =
      some (pacingEventOf st.time now) ∧
    pacingCount (dispatch st (some f) fmt now).2 = 1 := by
  rw [dispatch_delivery_eq st f fmt now hsz hfm, hemp]
  cases htt : st.time <;>
    simp [sendLoop, awaitLoop, pacingEventOf, pacingCount, isLockEvent]

/-- Witness for C10: empty registry, recorded deadline 40, fps 50 — the
tick blocks until 40 and stores 20040. -/
theorem dispatch_empty_registry_paces_witness :
    (const_frame.mk 10).size = exStEmpty.format_desc.size ∧
    exStEmpty.format_desc = exFmt ∧
    exStEmpty.consumers = [] ∧
    ((dispatch exStEmpty (some ⟨10⟩) exFmt 999).1.time =
      some (exStEmpty.time.getD 999 + 1000000 / exStEmpty.format_desc.fps) ∧
    (dispatch exStEmpty (some ⟨10⟩) exFmt 999).2.getLast? =
      some (pacingEventOf exStEmpty.time 999) ∧
    pacingCount (dispatch exStEmpty (some ⟨10⟩) exFmt 999).2 = 1) :=
  ⟨by decide, by decide, by decide,
    dispatch_empty_registry_paces exStEmpty ⟨10⟩ exFmt 999 (by decide)
      (by decide) (by decide)⟩

end output

namespace video_decoder

/-! Lemmas about `dup_frame` and its release action. -/

/-- With `k ≥ 1` holders, `k` releases run the deleter exactly once, at
the last release. -/
theorem releaseSeq_exact :
    ∀ k : Nat, releaseSeq (k + 1) (k + 1) = List.replicate k false ++ [true] := by
  intro k
  induction k with
  | zero => rfl
  | succ n ih =>
    show releaseSeq (n + 2) (n + 2) = List.replicate (n + 1) false ++ [true]
    rw [show releaseSeq (n + 2) (n + 2) =
        (releaseOnce (n + 2)).2 :: releaseSeq (releaseOnce (n + 2)).1 (n + 1)
      from rfl]
    simp [releaseOnce, ih, List.replicate_succ]

/-- Freeing, in order, a block list appended to a base heap removes
exactly those blocks, provided their pointers are distinct and disjoint
from the base heap. -/
theorem freeAll_of_disjoint :
    ∀ (pairs base : List (Ptr × Nat)) (nx : Ptr),
      (pairs.map Prod.fst).Nodup →
      (∀ q ∈ pairs, q.1 ∉ base.map Prod.fst) →
      freeAll (pairs.map Prod.fst) ⟨base ++ pairs, nx⟩ = some ⟨base, nx⟩ := by
  intro pairs
  induction pairs with
  | nil => intro base nx _ _; simp [freeAll]
  | cons q rest ih =>
    intro base nx hnd hdis
    obtain ⟨p, s⟩ := q
    rw [List.map_cons, List.nodup_cons] at hnd
    have hpbase : p ∉ base.map Prod.fst :=
      hdis (p, s) (List.mem_cons_self _ _)
    have hmem : p ∈ (base ++ (p, s) :: rest).map Prod.fst := by simp
    have hb : base.filter (fun b => b.1 ≠ p) = base := by
      rw [List.filter_eq_self]
      intro b hbmem
      simp only [ne_eq, decide_eq_true_eq]
      intro hbp
      exact hpbase (List.mem_map.mpr ⟨b, hbmem, hbp⟩)
    have hr : ((p, s) :: rest).filter (fun b => b.1 ≠ p) = rest := by
      have h1 : ((p, s) :: rest).filter (fun b => b.1 ≠ p) =
          rest.filter (fun b => b.1 ≠ p) := by simp
      rw [h1, List.filter_eq_self]
      intro b hbmem
      simp only [ne_eq, decide_eq_true_eq]
      intro hbp
      exact hnd.1 (List.mem_map.mpr ⟨b, hbmem, hbp⟩)
    rw [List.map_cons]
    rw [show freeAll (p :: rest.map Prod.fst)
        (AllocState.mk (base ++ (p, s) :: rest) nx) =
      (match scalable_aligned_free p ⟨base ++ (p, s) :: rest, nx⟩ with
        | some st1 => freeAll (rest.map Prod.fst) st1
        | none => none) from rfl]
    rw [scalable_aligned_free, if_pos hmem]
    simp only [List.filter_append, hb, hr]
    exact ih base nx hnd.2
      (fun q hq => hdis q (List.mem_cons_of_mem _ hq))

/-- The per-plane copy loop of `dup_frame`: the allocator gains exactly
one `linesize*height+16`-byte block per plane at fresh, distinct
addresses; the recorded original pointers are the frame's plane pointers;
and the allocator stays well formed. -/
theorem dupPlanes_spec (alignAdj : Ptr → Ptr) :
    ∀ (planes : List (Nat × (Ptr × Nat))) (st : AllocState), st.WF →
      (dupPlanes alignAdj planes st).2.1.blocks =
        st.blocks ++ (dupPlanes alignAdj planes st).2.2.2.zip
          (planes.map (fun q => q.2.2 * q.1 + 16)) ∧
      (dupPlanes alignAdj planes st).2.2.1 = planes.map (fun q => q.2.1) ∧
      (dupPlanes alignAdj planes st).1.length = planes.length ∧
      (dupPlanes alignAdj planes st).2.2.2.length = planes.length ∧
      (dupPlanes alignAdj planes st).2.1.WF ∧
      (∀ p ∈ (dupPlanes alignAdj planes st).2.2.2, st.next ≤ p) ∧
      (dupPlanes alignAdj planes st).2.2.2.Nodup ∧
      st.next ≤ (dupPlanes alignAdj planes st).2.1.next := by
  intro planes
  induction planes with
  | nil =>
    intro st hwf
    exact ⟨by simp [dupPlanes], rfl, rfl, rfl, hwf,
      by simp [dupPlanes], by simp [dupPlanes], le_refl _⟩
  | cons q rest ih =>
    intro st hwf
    obtain ⟨h, org, ls⟩ := q
    have hstep : dupPlanes alignAdj ((h, org, ls) :: rest) st =
        (alignAdj st.next ::
            (dupPlanes alignAdj rest
              ⟨st.blocks ++ [(st.next, ls * h + 16)],
                st.next + (ls * h + 16) + 1⟩).1,
          (dupPlanes alignAdj rest
            ⟨st.blocks ++ [(st.next, ls * h + 16)],
              st.next + (ls * h + 16) + 1⟩).2.1,
          org :: (dupPlanes alignAdj rest
            ⟨st.blocks ++ [(st.next, ls * h + 16)],
              st.next + (ls * h + 16) + 1⟩).2.2.1,
          st.next :: (dupPlanes alignAdj rest
            ⟨st.blocks ++ [(st.next, ls * h + 16)],
              st.next + (ls * h + 16) + 1⟩).2.2.2) := rfl
    have hwf1 : AllocState.WF
        ⟨st.blocks ++ [(st.next, ls * h + 16)],
          st.next + (ls * h + 16) + 1⟩ := by
      intro b hb
      show b.1 < st.next + (ls * h + 16) + 1
      rcases List.mem_append.mp hb with hb1 | hb2
      · have hlt := hwf b hb1
        exact hlt.trans_le ((Nat.le_add_right _ _).trans (Nat.le_succ _))
      · simp only [List.mem_singleton] at hb2
        subst hb2
        show st.next < st.next + (ls * h + 16) + 1
        exact Nat.lt_succ_of_le (Nat.le_add_right _ _)
    obtain ⟨i1, i2, i3, i4, i5, i6, i7, i8⟩ :=
      ih ⟨st.blocks ++ [(st.next, ls * h + 16)],
            st.next + (ls * h + 16) + 1⟩ hwf1
    rw [hstep]
    refine ⟨?_, ?_, ?_, ?_, i5, ?_, ?_, ?_⟩
    · simp only [List.map_cons, List.zip_cons_cons]
      rw [i1]
      simp
    · simp only [List.map_cons]
      rw [i2]
    · simp [i3]
    · simp [i4]
    · intro p hp
      rcases List.mem_cons.mp hp with hp1 | hp2
      · subst hp1; exact le_refl _
      · have h6 : st.next + (ls * h + 16) + 1 ≤ p := i6 p hp2
        exact ((Nat.le_add_right st.next (ls * h + 16)).trans
          (Nat.le_succ _)).trans h6
    · rw [List.nodup_cons]
      refine ⟨?_, i7⟩
      intro hmem
      have h6 : st.next + (ls * h + 16) + 1 ≤ st.next := i6 st.next hmem
      exact absurd ((Nat.lt_succ_of_le (Nat.le_add_right _ _)).trans_le h6)
        (lt_irrefl _)
    · have h8 : st.next + (ls * h + 16) + 1 ≤
          (dupPlanes alignAdj rest
            ⟨st.blocks ++ [(st.next, ls * h + 16)],
              st.next + (ls * h + 16) + 1⟩).2.1.next := i8
      exact ((Nat.le_add_right st.next (ls * h + 16)).trans
        (Nat.le_succ _)).trans h8

/-- The recorded original pointers of the zipped plane description are a
prefix of the frame's plane pointers. -/
theorem zip_org_take :
    ∀ (hs : List Nat) (ds : List Ptr) (ls : List Nat),
      (hs.zip (ds.zip ls)).map (fun q => q.2.1) =
        ds.take (hs.zip (ds.zip ls)).length := by
  intro hs
  induction hs with
  | nil => intro ds ls; simp
  | cons h hs ih =>
    intro ds ls
    cases ds with
    | nil => simp
    | cons d ds =>
      cases ls with
      | nil => simp
      | cons l ls =>
        simp only [List.zip_cons_cons, List.map_cons, List.length_cons,
          List.take_succ_cons]
        rw [ih ds ls]

/-- `dup_frame` decomposed into the plane loop. -/
theorem dup_frame_eq (alignAdj : Ptr → Ptr) (planeHeights : List Nat)
    (frame : AVPlaneFrame) (st : AllocState) :
    dup_frame alignAdj planeHeights frame st =
      ({ frame with
          data := (dupPlanes alignAdj
              (planeHeights.zip (frame.data.zip frame.linesize)) st).1 ++
            frame.data.drop
              (planeHeights.zip (frame.data.zip frame.linesize)).length },
        (dupPlanes alignAdj
          (planeHeights.zip (frame.data.zip frame.linesize)) st).2.1,
        ⟨(dupPlanes alignAdj
            (planeHeights.zip (frame.data.zip frame.linesize)) st).2.2.1,
          (dupPlanes alignAdj
            (planeHeights.zip (frame.data.zip frame.linesize)) st).2.2.2⟩) :=
  rfl

end video_decoder

namespace video_decoder

/-- The release closure applied to its recorded pointers. -/
theorem releaseRun_mk (orgs reals : List Ptr) (frame : AVPlaneFrame)
    (st : AllocState) :
    releaseRun ⟨orgs, reals⟩ frame st =
      match freeAll reals st with
      | some st1 =>
        some ({ frame with data := orgs ++ frame.data.drop orgs.length }, st1)
      | none => none := rfl

/-- Claim C9: `dup_frame` allocates exactly one aligned buffer of
`linesize*plane_height+16` bytes per plane; its release action succeeds —
freeing exactly those buffers (no double free) and leaving the allocator
with precisely the blocks it started with (no leak) — and restores the
original decoder-owned plane pointers on the frame object; and with
`k ≥ 1` holders of the duplicated frame, the release action runs exactly
once, at the last release. -/
theorem dup_frame_release_exact (alignAdj : Ptr → Ptr)
    (planeHeights : List Nat) (frame : AVPlaneFrame) (st : AllocState)
    (k : Nat) (hwf : st.WF) (hk : 1 ≤ k) :
    (dup_frame alignAdj planeHeights frame st).2.1.blocks =
      st.blocks ++
        ((dup_frame alignAdj planeHeights frame st).2.2.realPtrs.zip
          ((planeHeights.zip (frame.data.zip frame.linesize)).map
            (fun q => q.2.2 * q.1 + 16))) ∧
    releaseRun (dup_frame alignAdj planeHeights frame st).2.2
        (dup_frame alignAdj planeHeights frame st).1
        (dup_frame alignAdj planeHeights frame st).2.1 =
      some (frame,
        ⟨st.blocks, (dup_frame alignAdj planeHeights frame st).2.1.next⟩) ∧
    releaseSeq k k = List.replicate (k - 1) false ++ [true] := by
  obtain ⟨k, rfl⟩ : ∃ n, k = n + 1 := ⟨k - 1, (Nat.succ_pred_eq_of_pos hk).symm⟩
  obtain ⟨i1, i2, i3, i4, i5, i6, i7, i8⟩ :=
    dupPlanes_spec alignAdj (planeHeights.zip (frame.data.zip frame.linesize))
      st hwf
  refine ⟨?_, ?_, by simpa using releaseSeq_exact k⟩
  · show (dupPlanes alignAdj
        (planeHeights.zip (frame.data.zip frame.linesize)) st).2.1.blocks =
      st.blocks ++
        ((dupPlanes alignAdj
            (planeHeights.zip (frame.data.zip frame.linesize)) st).2.2.2.zip
          ((planeHeights.zip (frame.data.zip frame.linesize)).map
            (fun q => q.2.2 * q.1 + 16)))
    exact i1
  · have hlen2 : (dupPlanes alignAdj
        (planeHeights.zip (frame.data.zip frame.linesize)) st).2.2.2.length ≤
        (((planeHeights.zip (frame.data.zip frame.linesize)).map
          (fun q => q.2.2 * q.1 + 16))).length := by
      rw [i4, List.length_map]
    have hkeys : (((dupPlanes alignAdj
          (planeHeights.zip (frame.data.zip frame.linesize)) st).2.2.2.zip
        (((planeHeights.zip (frame.data.zip frame.linesize)).map
          (fun q => q.2.2 * q.1 + 16)))).map Prod.fst) =
        (dupPlanes alignAdj
          (planeHeights.zip (frame.data.zip frame.linesize)) st).2.2.2 :=
      List.map_fst_zip _ _ hlen2
    have hnd2 : ((((dupPlanes alignAdj
          (planeHeights.zip (frame.data.zip frame.linesize)) st).2.2.2.zip
        (((planeHeights.zip (frame.data.zip frame.linesize)).map
          (fun q => q.2.2 * q.1 + 16)))).map Prod.fst)).Nodup := by
      rw [hkeys]; exact i7
    have hdis : ∀ q ∈ ((dupPlanes alignAdj
          (planeHeights.zip (frame.data.zip frame.linesize)) st).2.2.2.zip
        (((planeHeights.zip (frame.data.zip frame.linesize)).map
          (fun q => q.2.2 * q.1 + 16)))),
        q.1 ∉ st.blocks.map Prod.fst := by
      intro q hq hmem2
      rcases List.mem_map.mp hmem2 with ⟨b, hb, hb1⟩
      have h1 : st.next ≤ q.1 := i6 q.1 (List.of_mem_zip hq).1
      have h2 : b.1 < st.next := hwf b hb
      rw [hb1] at h2
      exact absurd (h2.trans_le h1) (lt_irrefl _)
    have hfree := freeAll_of_disjoint
      ((dupPlanes alignAdj
          (planeHeights.zip (frame.data.zip frame.linesize)) st).2.2.2.zip
        (((planeHeights.zip (frame.data.zip frame.linesize)).map
          (fun q => q.2.2 * q.1 + 16))))
      st.blocks
      (dupPlanes alignAdj
        (planeHeights.zip (frame.data.zip frame.linesize)) st).2.1.next
      hnd2 hdis
    rw [hkeys] at hfree
    have hsteq : AllocState.mk
        (st.blocks ++
          ((dupPlanes alignAdj
              (planeHeights.zip (frame.data.zip frame.linesize)) st).2.2.2.zip
            (((planeHeights.zip (frame.data.zip frame.linesize)).map
              (fun q => q.2.2 * q.1 + 16)))))
        (dupPlanes alignAdj
          (planeHeights.zip (frame.data.zip frame.linesize)) st).2.1.next =
        (dupPlanes alignAdj
          (planeHeights.zip (frame.data.zip frame.linesize)) st).2.1 := by
      rw [← i1]
    rw [hsteq] at hfree
    have hlen3 : (dupPlanes alignAdj
        (planeHeights.zip (frame.data.zip frame.linesize)) st).1.length =
        ((dupPlanes alignAdj
          (planeHeights.zip (frame.data.zip frame.linesize)) st).2.2.1).length := by
      rw [i3, i2, List.length_map]
    have hdata : (dupPlanes alignAdj
        (planeHeights.zip (frame.data.zip frame.linesize)) st).2.2.1 ++
        ((dupPlanes alignAdj
            (planeHeights.zip (frame.data.zip frame.linesize)) st).1 ++
          frame.data.drop
            (planeHeights.zip (frame.data.zip frame.linesize)).length).drop
          ((dupPlanes alignAdj
            (planeHeights.zip (frame.data.zip frame.linesize)) st).2.2.1).length =
        frame.data := by
      rw [List.drop_left' hlen3]
      rw [i2, zip_org_take planeHeights frame.data frame.linesize,
        List.take_append_drop]
    show releaseRun
        ⟨(dupPlanes alignAdj
            (planeHeights.zip (frame.data.zip frame.linesize)) st).2.2.1,
          (dupPlanes alignAdj
            (planeHeights.zip (frame.data.zip frame.linesize)) st).2.2.2⟩
        { frame with
            data := (dupPlanes alignAdj
                (planeHeights.zip (frame.data.zip frame.linesize)) st).1 ++
              frame.data.drop
                (planeHeights.zip (frame.data.zip frame.linesize)).length }
        (dupPlanes alignAdj
          (planeHeights.zip (frame.data.zip frame.linesize)) st).2.1 =
      some (frame,
        ⟨st.blocks,
          (dupPlanes alignAdj
            (planeHeights.zip (frame.data.zip frame.linesize)) st).2.1.next⟩)
    rw [releaseRun_mk, hfree]
    show some (AVPlaneFrame.mk
        ((dupPlanes alignAdj
            (planeHeights.zip (frame.data.zip frame.linesize)) st).2.2.1 ++
          ((dupPlanes alignAdj
              (planeHeights.zip (frame.data.zip frame.linesize)) st).1 ++
            frame.data.drop
              (planeHeights.zip (frame.data.zip frame.linesize)).length).drop
            ((dupPlanes alignAdj
              (planeHeights.zip (frame.data.zip frame.linesize)) st).2.2.1).length)
        frame.linesize,
      AllocState.mk st.blocks
        (dupPlanes alignAdj
          (planeHeights.zip (frame.data.zip frame.linesize)) st).2.1.next) =
      some (frame,
        ⟨st.blocks,
          (dupPlanes alignAdj
            (planeHeights.zip (frame.data.zip frame.linesize)) st).2.1.next⟩)
    rw [hdata]

/-- Witness for C9: a two-plane frame (linesizes 10 and 20, heights 5 and
6), a heap already holding one foreign block, and three holders. -/
theorem dup_frame_release_exact_witness :
    AllocState.WF ⟨[(40, 3)], 500⟩ ∧ (1 ≤ 3) ∧
    ((dup_frame id [5, 6] ⟨[100, 200], [10, 20]⟩ ⟨[(40, 3)], 500⟩).2.1.blocks =
      (⟨[(40, 3)], 500⟩ : AllocState).blocks ++
        ((dup_frame id [5, 6] ⟨[100, 200], [10, 20]⟩
            ⟨[(40, 3)], 500⟩).2.2.realPtrs.zip
          ((([5, 6] : List Nat).zip
              ((⟨[100, 200], [10, 20]⟩ : AVPlaneFrame).data.zip
                (⟨[100, 200], [10, 20]⟩ : AVPlaneFrame).linesize)).map
            (fun q => q.2.2 * q.1 + 16))) ∧
    releaseRun (dup_frame id [5, 6] ⟨[100, 200], [10, 20]⟩
          ⟨[(40, 3)], 500⟩).2.2
        (dup_frame id [5, 6] ⟨[100, 200], [10, 20]⟩ ⟨[(40, 3)], 500⟩).1
        (dup_frame id [5, 6] ⟨[100, 200], [10, 20]⟩ ⟨[(40, 3)], 500⟩).2.1 =
      some (⟨[100, 200], [10, 20]⟩,
        ⟨(⟨[(40, 3)], 500⟩ : AllocState).blocks,
          (dup_frame id [5, 6] ⟨[100, 200], [10, 20]⟩
            ⟨[(40, 3)], 500⟩).2.1.next⟩) ∧
    releaseSeq 3 3 = List.replicate (3 - 1) false ++ [true]) :=
  ⟨by decide, by decide,
    dup_frame_release_exact id [5, 6] ⟨[100, 200], [10, 20]⟩ ⟨[(40, 3)], 500⟩
      3 (by decide) (by decide)⟩

end video_decoder
